import Mathlib

/-!
Verification development for the Solana privacy-pool / blind-batch repository.

The development shallowly embeds the three Rust sources:

* programs/privacy_pool/src/lib.rs — the commitment accumulator (Merkle tree
  over Poseidon) and the nullifier set;
* arcium-relay/programs/obsidian_mpc/src/lib.rs — the batch lifecycle state
  machine (Anchor program);
* arcium-relay/encrypted-ixs/src/lib.rs — the MPC circuits (batch statistics
  and the pro-rata distribution computation).

Conventions of the embedding:

* 32-byte values (commitments, nullifiers, digests) are modelled as natural
  numbers; the all-zero 32-byte value is 0.  Only equality tests and the zero
  constant are ever applied to them in the source, so this injective encoding
  is faithful.
* The Poseidon pair hash (light-poseidon, BN254, circom parameters) is an
  external dependency whose round constants are not part of this repository;
  it is modelled as an explicit function parameter H of the definitions that
  use it.  Every theorem about the tree is stated for arbitrary H (and hence
  holds for the Poseidon instantiation), and refutations exhibit a concrete H
  together with the structural reason they apply to any collision-resistant
  instantiation.
* Machine integers are natural numbers with explicit reduction modulo 2^w at
  the operations where the source performs w-bit arithmetic that can wrap
  (u8 counters, the u128 product and the cast to u64 in the MPC circuit).
  Increments that the source guards by a strict capacity bound before adding
  (next_index, nullifier count) cannot wrap and are left unreduced.
* An Anchor instruction handler of Rust type fn(...) -> Result<()> mutating
  its accounts through &mut references is embedded as a function returning
  (Except E Unit) × State: the state component is the content of the account
  struct when the handler returns, whether with Ok or with Err.  This makes
  the order of mutations relative to the require! guards observable, which is
  what the atomicity claims are about.
-/

namespace ObsidianSpec

/-! ## Privacy pool: constants and Merkle root (privacy_pool/src/lib.rs) -/

/-- Merkle tree depth, `MERKLE_DEPTH = 5` in the source. -/
def MERKLE_DEPTH : Nat := 5

/-- Maximum number of stored leaves, `MAX_LEAVES = 32` in the source. -/
def MAX_LEAVES : Nat := 32

/-- One round of the hash-up loop of `compute_merkle_root`: pair adjacent
entries, a missing right sibling defaulting to the zero leaf
(`current_level.get(i+1).copied().unwrap_or([0u8; 32])`). -/
def hashLevel (H : Nat → Nat → Nat) : List Nat → List Nat
  | [] => []
  | [a] => [H a 0]
  | a :: b :: rest => H a b :: hashLevel H rest

/-- The `for _ in 0..MERKLE_DEPTH` loop of `compute_merkle_root`: apply
`hashLevel` the given number of times. -/
def hashRounds (H : Nat → Nat → Nat) : Nat → List Nat → List Nat
  | 0, l => l
  | n + 1, l => hashRounds H n (hashLevel H l)

/-- The `while current_level.len() < (1 << MERKLE_DEPTH)` padding loop: pad
the list on the right with zero leaves up to length `n`. -/
def padTo (n : Nat) (l : List Nat) : List Nat :=
  l ++ List.replicate (n - l.length) 0

/-- Embedding of `compute_merkle_root(leaves, count)` (privacy_pool lib.rs,
lines 290-316): zero for an empty tree, otherwise take the first `count`
leaves, pad to `2^MERKLE_DEPTH` entries and hash up for `MERKLE_DEPTH`
rounds; `headD 0` stands for the final `current_level[0]` (the level is a
singleton whenever `count ≥ 1`). -/
def compute_merkle_root (H : Nat → Nat → Nat) (leaves : List Nat) (count : Nat) : Nat :=
  if count = 0 then 0
  else (hashRounds H MERKLE_DEPTH (padTo (2 ^ MERKLE_DEPTH) (leaves.take count))).headD 0

/-- The pad-and-hash-up-the-tree root computation exactly as the
specification words it (spec section 4.1): take the committed leaves, pad on
the right with the zero leaf up to `2^depth` entries, hash adjacent pairs
for `depth` rounds.  The spec's algorithm has no special case for an empty
leaf sequence; this definition exists to be compared with the source's
`compute_merkle_root`, which short-circuits `count == 0` to the all-zero
root. -/
def specPadHashRoot (H : Nat → Nat → Nat) (leaves : List Nat) : Nat :=
  (hashRounds H MERKLE_DEPTH (padTo (2 ^ MERKLE_DEPTH) leaves)).headD 0

/-- Errors of the privacy-pool program (`PoolError`). -/
inductive PoolError
  | TreeFull
  | NullifierAlreadyUsed
  | NullifierStorageFull
deriving DecidableEq

/-- State of the `PrivacyPool` account.  `authority` and `nullifier_count`
play no role in any tree operation and are omitted; `leaves` is the fixed
32-slot array, `next_index` the `u32` insertion cursor (guarded strictly
below `MAX_LEAVES` before every increment, hence never wrapping). -/
structure PrivacyPool where
  merkle_root : Nat
  next_index : Nat
  leaves : List Nat
deriving DecidableEq

/-- Embedding of `initialize` (lines 23-32): zero root, zero cursor; the
fresh Anchor account's data, hence the leaf array, is all zeroes. -/
def initPool : PrivacyPool :=
  { merkle_root := 0, next_index := 0, leaves := List.replicate MAX_LEAVES 0 }

/-- Embedding of `add_commitment` (lines 131-155): guard the capacity, store
the commitment at `next_index`, advance the cursor and synchronously
recompute the root. -/
def add_commitment (H : Nat → Nat → Nat) (pool : PrivacyPool) (commitment : Nat) :
    Except PoolError Unit × PrivacyPool :=
  if pool.next_index < MAX_LEAVES then
    let leaves := pool.leaves.set pool.next_index commitment
    let next := pool.next_index + 1
    (Except.ok (),
      { merkle_root := compute_merkle_root H leaves next, next_index := next, leaves := leaves })
  else (Except.error PoolError.TreeFull, pool)

/-- Embedding of `deposit` (lines 41-91) restricted to the pool account: the
capacity guard comes first, the USDC `transfer_checked` CPI touches only the
token accounts (out of scope), then the commitment is inserted exactly as in
`add_commitment`.  The `amount` argument only feeds the token transfer. -/
def deposit (H : Nat → Nat → Nat) (pool : PrivacyPool) (commitment : Nat) (amount : Nat) :
    Except PoolError Unit × PrivacyPool :=
  if pool.next_index < MAX_LEAVES then
    let leaves := pool.leaves.set pool.next_index commitment
    let next := pool.next_index + 1
    (Except.ok (),
      { merkle_root := compute_merkle_root H leaves next, next_index := next, leaves := leaves })
  else (Except.error PoolError.TreeFull, pool)

/-- Reachable pool states: the initial state, closed under `deposit` and
`add_commitment` (failing calls return the unchanged state, so including
them is harmless). -/
inductive ReachPool (H : Nat → Nat → Nat) : PrivacyPool → Prop
  | init : ReachPool H initPool
  | dep (s : PrivacyPool) (c a : Nat) : ReachPool H s → ReachPool H (deposit H s c a).2
  | add (s : PrivacyPool) (c : Nat) : ReachPool H s → ReachPool H (add_commitment H s c).2

/-! ## Nullifier set (privacy_pool/src/lib.rs, lines 94-128, 246-250) -/

/-- State of the `NullifierSet` account: `count` (u32, guarded below
`MAX_LEAVES` before every increment) and the fixed 32-slot data array. -/
structure NullifierSet where
  count : Nat
  data : List Nat
deriving DecidableEq

/-- A fresh `NullifierSet` account: zeroed data, zero count. -/
def initNullifiers : NullifierSet :=
  { count := 0, data := List.replicate MAX_LEAVES 0 }

/-- Embedding of `is_nullifier_used` (lines 94-104): scan the first `count`
entries for the nullifier. -/
def is_nullifier_used (ns : NullifierSet) (nullifier : Nat) : Bool :=
  (ns.data.take ns.count).any (fun x => x == nullifier)

/-- Embedding of `record_nullifier` (lines 108-128): first the
already-used scan (`NullifierAlreadyUsed`), then the capacity guard
(`NullifierStorageFull`), then append and increment. -/
def record_nullifier (ns : NullifierSet) (nullifier : Nat) :
    Except PoolError Unit × NullifierSet :=
  if (ns.data.take ns.count).any (fun x => x == nullifier) then
    (Except.error PoolError.NullifierAlreadyUsed, ns)
  else if ns.count < MAX_LEAVES then
    (Except.ok (), { count := ns.count + 1, data := ns.data.set ns.count nullifier })
  else (Except.error PoolError.NullifierStorageFull, ns)

/-- Run a list of `record_nullifier` calls from a starting state (failing
calls leave the state unchanged, as in the source, where both guards precede
the mutation). -/
def runNullifiers (ops : List Nat) (ns : NullifierSet) : NullifierSet :=
  ops.foldl (fun s n => (record_nullifier s n).2) ns

/-- Whether a run of `record_nullifier` calls contains a successful record
of the nullifier `N`. -/
def recordedOk (ops : List Nat) (ns : NullifierSet) (N : Nat) : Bool :=
  match ops with
  | [] => false
  | o :: rest =>
    ((o == N) && (record_nullifier ns o).1.isOk)
      || recordedOk rest (record_nullifier ns o).2 N

/-! ## Batch lifecycle (arcium-relay/programs/obsidian_mpc/src/lib.rs) -/

/-- Lifecycle states of a batch (`BatchStatus`, lines 238-245). -/
inductive BatchStatus
  | Open
  | Closed
  | Executed
  | Distributing
  | Completed
deriving DecidableEq

/-- Program errors of the obsidian_mpc program (`ErrorCode`, lines 431-445). -/
inductive ErrorCode
  | BatchNotOpen
  | BatchEmpty
  | BatchNotClosed
  | BatchNotExecuted
  | AlreadyDistributed
  | CountMismatch
deriving DecidableEq

/-- A transaction-level error: either a program error raised by a require!
guard, or an account-constraint failure raised by the Anchor runtime before
the handler body runs (init on an existing account, lookup of a missing
account). -/
inductive TxError
  | program (e : ErrorCode)
  | accountAlreadyInUse
  | accountNotFound
deriving DecidableEq

/-- State of the `Batch` account (lines 212-223).  `order_count` and
`distributions_completed` are `u8` fields and wrap modulo 256 on increment;
`total_usdc` and `total_shares` are `u64` values only ever assigned from
arguments. -/
structure Batch where
  authority : Nat
  market_id : String
  side : Nat
  status : BatchStatus
  order_count : Nat
  total_usdc : Nat
  total_shares : Nat
  created_at : Int
  distributions_completed : Nat
deriving DecidableEq

/-- State of a `Distribution` account (lines 226-232); the `batch : Pubkey`
link field is enforced by the runtime's has_one constraint and is not
modelled (the system state below tracks a single batch with its
distributions keyed by order index). -/
structure Distribution where
  order_index : Nat
  shares : Nat
  wallet : Nat
  executed : Bool
deriving DecidableEq

/-- Embedding of `create_batch` (lines 49-73): a freshly initialized batch.
`distributions_completed` is not assigned in the handler; the fresh Anchor
account's data is zeroed, so it starts at 0. -/
def create_batch (authority : Nat) (market_id : String) (side : Nat) (now : Int) : Batch :=
  { authority := authority, market_id := market_id, side := side,
    status := BatchStatus.Open, order_count := 0, total_usdc := 0,
    total_shares := 0, created_at := now, distributions_completed := 0 }

/-- Embedding of `record_order` (lines 77-90): require the batch Open, then
increment the u8 order counter (modulo 256). -/
def record_order (b : Batch) : Except ErrorCode Unit × Batch :=
  if b.status = BatchStatus.Open then
    (Except.ok (), { b with order_count := (b.order_count + 1) % 256 })
  else (Except.error ErrorCode.BatchNotOpen, b)

/-- Embedding of `close_batch` (lines 93-119), preserving the source's
statement order: require Open, require a non-empty batch, THEN set
`status := Closed` and `total_usdc := revealed_total`, and only afterwards
require `revealed_count == order_count`.  On a count mismatch the handler
thus returns the error with the batch already mutated. -/
def close_batch (b : Batch) (revealed_total : Nat) (revealed_count : Nat) :
    Except ErrorCode Unit × Batch :=
  if b.status = BatchStatus.Open then
    if b.order_count > 0 then
      let b1 := { b with status := BatchStatus.Closed, total_usdc := revealed_total }
      if revealed_count = b1.order_count then (Except.ok (), b1)
      else (Except.error ErrorCode.CountMismatch, b1)
    else (Except.error ErrorCode.BatchEmpty, b)
  else (Except.error ErrorCode.BatchNotOpen, b)

/-- Embedding of `record_execution` (lines 122-144): require Closed, then
mark Executed and record the share total (the transaction signature string
only feeds the event). -/
def record_execution (b : Batch) (total_shares : Nat) : Except ErrorCode Unit × Batch :=
  if b.status = BatchStatus.Closed then
    (Except.ok (), { b with status := BatchStatus.Executed, total_shares := total_shares })
  else (Except.error ErrorCode.BatchNotClosed, b)

/-- Embedding of the body of `mark_distributed` (lines 182-205) on a loaded
distribution account: require the distribution not yet executed, flip the
flag, bump the u8 completion counter, and complete the batch exactly when
the bumped counter equals the order count. -/
def mark_distributed (b : Batch) (d : Distribution) :
    Except ErrorCode Unit × Batch × Distribution :=
  if d.executed then (Except.error ErrorCode.AlreadyDistributed, b, d)
  else
    let d1 := { d with executed := true }
    let b1 := { b with distributions_completed := (b.distributions_completed + 1) % 256 }
    let b2 := if b1.distributions_completed = b1.order_count
              then { b1 with status := BatchStatus.Completed } else b1
    (Except.ok (), b2, d1)

/-- System state for lifecycle runs: one batch together with its
distribution accounts, keyed by order index (the PDA seed is
`[b"dist", batch, order_index]`, so one account per index). -/
structure Sys where
  batch : Batch
  dists : List (Nat × Distribution)
deriving DecidableEq

/-- Replace the stored distribution at an index. -/
def setDist (l : List (Nat × Distribution)) (i : Nat) (d : Distribution) :
    List (Nat × Distribution) :=
  l.map (fun p => if p.1 = i then (i, d) else p)

/-- The lifecycle instructions acting on a batch and its distributions. -/
inductive Op
  | recordOrder
  | closeBatch (revealed_total revealed_count : Nat)
  | recordExecution (total_shares : Nat)
  | recordDistribution (order_index shares wallet : Nat)
  | markDistributed (order_index : Nat)

/-- Apply one instruction to the system state.  `recordDistribution` embeds
`record_distribution` (lines 147-179): the Anchor `init` constraint on the
distribution PDA rejects an already-existing index before the body runs;
the body requires status Executed or Distributing, moves Executed to
Distributing and writes the fresh distribution record with
`executed = false`.  `markDistributed` loads the distribution account by
index (missing account rejected by the runtime) and runs
`mark_distributed`. -/
def applyOp (sys : Sys) : Op → Except TxError Unit × Sys
  | Op.recordOrder =>
    let r := record_order sys.batch
    (r.1.mapError TxError.program, { sys with batch := r.2 })
  | Op.closeBatch t c =>
    let r := close_batch sys.batch t c
    (r.1.mapError TxError.program, { sys with batch := r.2 })
  | Op.recordExecution s =>
    let r := record_execution sys.batch s
    (r.1.mapError TxError.program, { sys with batch := r.2 })
  | Op.recordDistribution i sh w =>
    match sys.dists.lookup i with
    | some _ => (Except.error TxError.accountAlreadyInUse, sys)
    | none =>
      if sys.batch.status = BatchStatus.Executed
          ∨ sys.batch.status = BatchStatus.Distributing then
        let b1 := if sys.batch.status = BatchStatus.Executed
                  then { sys.batch with status := BatchStatus.Distributing } else sys.batch
        let d : Distribution :=
          { order_index := i, shares := sh, wallet := w, executed := false }
        (Except.ok (), { batch := b1, dists := (i, d) :: sys.dists })
      else (Except.error (TxError.program ErrorCode.BatchNotExecuted), sys)
  | Op.markDistributed i =>
    match sys.dists.lookup i with
    | none => (Except.error TxError.accountNotFound, sys)
    | some d =>
      let r := mark_distributed sys.batch d
      (r.1.mapError TxError.program, { batch := r.2.1, dists := setDist sys.dists i r.2.2 })

/-- Run a list of instructions, threading the system state (a failing
instruction keeps the state the embedding hands back, which for every
handler except the count-mismatch branch of `close_batch` is the input
state). -/
def runOps (sys : Sys) (ops : List Op) : Sys :=
  ops.foldl (fun s op => (applyOp s op).2) sys

/-- Iterate `record_order` n times on a batch. -/
def recordOrders (b : Batch) : Nat → Batch
  | 0 => b
  | n + 1 => (record_order (recordOrders b n)).2

/-- The PDA seed tuple of the batch account, from the `CreateBatch` accounts
struct (lines 317-331): seeds = [b"batch", authority, market_id].  The
`side` instruction argument of `create_batch` is NOT part of the seeds; it
is accepted as a parameter here to record that fact.  The on-chain address
is a fixed function of (program id, seed tuple), so two batch accounts have
distinct addresses only if their seed tuples differ, and identical seed
tuples give the identical address. -/
def createBatchSeeds (authority : Nat) (market_id : String) (side : Nat) :
    String × Nat × String :=
  ("batch", authority, market_id)

/-! ## MPC circuits (arcium-relay/encrypted-ixs/src/lib.rs) -/

/-- The confidential batch statistics (`BatchStats`): a u64 running total
and a u8 order count. -/
structure BatchStats where
  total_usdc : Nat
  order_count : Nat
deriving DecidableEq

/-- Embedding of the `init_batch` circuit (lines 32-39). -/
def init_batch : BatchStats :=
  { total_usdc := 0, order_count := 0 }

/-- Embedding of the `add_to_batch` circuit (lines 43-55): u64 addition of
the order amount and u8 increment of the counter (both wrapping). -/
def add_to_batch (usdc_amount : Nat) (stats : BatchStats) : BatchStats :=
  { total_usdc := (stats.total_usdc + usdc_amount) % 2 ^ 64,
    order_count := (stats.order_count + 1) % 256 }

/-- Embedding of the `reveal_batch_total` circuit (lines 59-63). -/
def reveal_batch_total (stats : BatchStats) : Nat × Nat :=
  (stats.total_usdc, stats.order_count)

/-- Embedding of the `compute_distribution` circuit (lines 69-88): when the
batch total is positive, the u64 operands are widened to u128, multiplied
and divided there (the product reduced modulo 2^128, the width of u128
arithmetic), and the quotient is cast back with `as u64`, i.e. reduced
modulo 2^64; a zero batch total yields 0. -/
def compute_distribution (order_amount : Nat) (batch_total : Nat) (total_shares : Nat) : Nat :=
  if batch_total > 0 then
    (order_amount * total_shares % 2 ^ 128 / batch_total) % 2 ^ 64
  else 0

/-! ## Shared concrete instances and helper lemmas -/

/-- A concrete pair-hash instantiation used to witness and to refute
hash-generic statements; any instantiation without the fixed-point property
iterated-hash-of-zeros = 0 (which collision-resistant hashes such as
Poseidon do not have) behaves the same way on the refuted statements. -/
def Hcex : Nat → Nat → Nat := fun a b => a + b + 1

/-- A concrete freshly created batch. -/
def batchA : Batch := create_batch 1 "SOL" 0 7

/-- The concrete batch after three recorded orders. -/
def batchA3 : Batch := recordOrders batchA 3

/-- A concrete system state whose batch has three recorded orders and no
distributions. -/
def sysA3 : Sys := { batch := batchA3, dists := [] }

/-- Iterating record_order on an Open batch keeps it Open and advances the
u8 counter by one per call, modulo 256. -/
theorem recordOrders_open (b : Batch) (hb : b.status = BatchStatus.Open)
    (hc : b.order_count < 256) (k : Nat) :
    recordOrders b k = { b with order_count := (b.order_count + k) % 256 } := by
  induction k with
  | zero =>
    simp [recordOrders, Nat.mod_eq_of_lt hc]
  | succ k ih =>
    rw [recordOrders, ih, record_order]
    simp only [hb, if_pos rfl]
    have : ((b.order_count + k) % 256 + 1) % 256 = (b.order_count + (k + 1)) % 256 := by omega
    simp [this]

/-! ## Claim C3: pro-rata share computation -/

/-- Claim C3, counterexample: at order_amount = 2, batch_total = 1,
total_shares = 2^63 — all valid u64 values, batch_total positive — the
circuit returns 0, while the exact value floor(2 * 2^63 / 1) = 2^64 does
not fit in u64 and differs from 0: the final cast to u64 truncates the
quotient, so the function does NOT return the exact floor for all u64
operand triples. -/
theorem compute_distribution_truncates_counterexample :
    2 < 2 ^ 64 ∧ 1 < 2 ^ 64 ∧ 2 ^ 63 < 2 ^ 64 ∧ 0 < 1 ∧
    compute_distribution 2 1 (2 ^ 63) = 0 ∧ 2 * 2 ^ 63 / 1 = 2 ^ 64 ∧
    compute_distribution 2 1 (2 ^ 63) ≠ 2 * 2 ^ 63 / 1 := by
  refine ⟨by norm_num, by norm_num, by norm_num, by norm_num, ?_, by norm_num, ?_⟩ <;>
    decide

/-- Claim C3 (amended): for u64 operands the u128 product is exact (no
overflow before the division); when the batch total is positive the circuit
returns the exact quotient reduced modulo 2^64 (the `as u64` cast), which
equals the exact floor whenever that floor fits in u64 — in particular
whenever order_amount ≤ batch_total; a zero batch total yields 0. -/
theorem compute_distribution_spec (a t s : Nat)
    (ha : a < 2 ^ 64) (ht : t < 2 ^ 64) (hs : s < 2 ^ 64) :
    a * s % 2 ^ 128 = a * s ∧
    (0 < t → compute_distribution a t s = a * s / t % 2 ^ 64) ∧
    (t = 0 → compute_distribution a t s = 0) ∧
    (0 < t → a ≤ t → compute_distribution a t s = a * s / t) := by
  have hprod : a * s < 2 ^ 128 := by
    have h1 : a * s ≤ (2 ^ 64 - 1) * (2 ^ 64 - 1) :=
      Nat.mul_le_mul (by omega) (by omega)
    calc a * s ≤ (2 ^ 64 - 1) * (2 ^ 64 - 1) := h1
      _ < 2 ^ 128 := by norm_num
  have hmod : a * s % 2 ^ 128 = a * s := Nat.mod_eq_of_lt hprod
  have hopen : 0 < t → compute_distribution a t s = a * s / t % 2 ^ 64 := by
    intro ht0
    unfold compute_distribution
    rw [if_pos ht0, hmod]
  refine ⟨hmod, hopen, ?_, ?_⟩
  · intro ht0
    unfold compute_distribution
    rw [if_neg (by omega)]
  · intro ht0 hat
    have hq : a * s / t ≤ s := by
      have h1 : a * s ≤ t * s := Nat.mul_le_mul_right s hat
      have h2 : a * s / t ≤ t * s / t := Nat.div_le_div_right h1
      simpa [Nat.mul_div_cancel_left s ht0] using h2
    have hlt : a * s / t < 2 ^ 64 := lt_of_le_of_lt hq hs
    rw [hopen ht0, Nat.mod_eq_of_lt hlt]

/-- Claim C3 witness: the specification's own example, computeShare(250,
batchTotal = 1000, totalShares = 100) = 25, via the amended theorem. -/
theorem compute_distribution_spec_witness :
    250 < 2 ^ 64 ∧ 1000 < 2 ^ 64 ∧ 100 < 2 ^ 64 ∧ 0 < 1000 ∧ 250 ≤ 1000 ∧
    compute_distribution 250 1000 100 = 25 := by
  refine ⟨by norm_num, by norm_num, by norm_num, by norm_num, by norm_num, ?_⟩
  have h := (compute_distribution_spec 250 1000 100 (by norm_num) (by norm_num)
    (by norm_num)).2.2.2 (by norm_num) (by norm_num)
  rw [h]

/-! ## Claim C4: close_batch functional behaviour -/

/-- Claim C4: close_batch succeeds exactly when the batch is Open,
non-empty and the revealed count matches, setting status Closed and the
revealed total; the guards fail in the order NotOpen, Empty, CountMismatch;
and the specification's concrete scenario: after three orders, close(900,3)
succeeds with total 900, a second close fails NotOpen, and close(900,2) on
the fresh three-order batch fails CountMismatch. -/
theorem close_batch_spec :
    (∀ b t r, b.status ≠ BatchStatus.Open →
      close_batch b t r = (Except.error ErrorCode.BatchNotOpen, b)) ∧
    (∀ b t r, b.status = BatchStatus.Open → b.order_count = 0 →
      close_batch b t r = (Except.error ErrorCode.BatchEmpty, b)) ∧
    (∀ b t r, b.status = BatchStatus.Open → 0 < b.order_count → r ≠ b.order_count →
      (close_batch b t r).1 = Except.error ErrorCode.CountMismatch) ∧
    (∀ b t r, b.status = BatchStatus.Open → 0 < b.order_count → r = b.order_count →
      close_batch b t r
        = (Except.ok (), { b with status := BatchStatus.Closed, total_usdc := t })) ∧
    batchA3.order_count = 3 ∧
    close_batch batchA3 900 3
      = (Except.ok (), { batchA3 with status := BatchStatus.Closed, total_usdc := 900 }) ∧
    (close_batch batchA3 900 3).2.total_usdc = 900 ∧
    (close_batch (close_batch batchA3 900 3).2 900 3).1 = Except.error ErrorCode.BatchNotOpen ∧
    (close_batch batchA3 900 2).1 = Except.error ErrorCode.CountMismatch := by
  refine ⟨?_, ?_, ?_, ?_, by decide, by rfl, by rfl, by rfl, by rfl⟩
  · intro b t r h
    simp [close_batch, h]
  · intro b t r h h0
    simp [close_batch, h, h0]
  · intro b t r h h0 hr
    simp [close_batch, h, h0, hr]
  · intro b t r h h0 hr
    simp [close_batch, h, h0, hr]

/-- Claim C4 witness: the success branch of close_batch at the concrete
three-order batch, via the theorem. -/
theorem close_batch_spec_witness :
    batchA3.status = BatchStatus.Open ∧ 0 < batchA3.order_count ∧ (3 : Nat) = batchA3.order_count ∧
    close_batch batchA3 900 3
      = (Except.ok (), { batchA3 with status := BatchStatus.Closed, total_usdc := 900 }) :=
  ⟨by decide, by decide, by decide,
    close_batch_spec.2.2.2.1 batchA3 900 3 (by decide) (by decide) (by decide)⟩
/-! ## Claim C2: no partial application on error -/

/-- Modelled from the spec: the host ledger's transaction atomicity.  The
execution environment is out of scope of the sources (spec sections 1 and
5): it persists an instruction's account writes only when the instruction
succeeds and discards them when it fails, so the observable (persisted)
state after an erroring call is the pre-call state.  applyOpTx is applyOp
with this revert applied to the error branch. -/
def applyOpTx (sys : Sys) (op : Op) : Except TxError Unit × Sys :=
  if (applyOp sys op).1.isOk then applyOp sys op else ((applyOp sys op).1, sys)

/-- The handler-level write order inside close_batch: on a count mismatch
the function body has already set status = Closed and total_usdc before the
failing require!, so for this one handler the all-or-nothing behaviour
observable on chain is delivered by the ledger discarding the failed
transaction's writes, not by the handler body itself; every other handler
places all of its guards before its first mutation. -/
theorem close_batch_mutates_before_count_check :
    (close_batch batchA3 900 2).1 = Except.error ErrorCode.CountMismatch ∧
    (close_batch batchA3 900 2).2
      = { batchA3 with status := BatchStatus.Closed, total_usdc := 900 } ∧
    (close_batch batchA3 900 2).2 ≠ batchA3 ∧
    (close_batch batchA3 900 2).2.status ≠ batchA3.status ∧
    (close_batch batchA3 900 2).2.total_usdc ≠ batchA3.total_usdc := by
  refine ⟨by rfl, by rfl, by decide, by decide, by decide⟩

/-- Claim C2: an operation that returns an error leaves the observable
state unchanged — no partial application.  Every handler except
close_batch is guard-first, so already the state the handler body hands
back on error is its input state (proved directly for deposit,
add_commitment, record_nullifier, record_order, record_execution,
mark_distributed and record_distribution); under the ledger's transaction
semantics applyOpTx every lifecycle instruction, close_batch included,
leaves the persisted state unchanged on error — in particular a
CountMismatch failure leaves the batch's status and total amount
observably unchanged, and an insert into a full pool (the (L_max+1)-th
insert) fails with TreeFull and leaves the pool state identical. -/
theorem tx_error_rollback :
    (∀ (H : Nat → Nat → Nat) (p : PrivacyPool) (c a : Nat) (e : PoolError),
      (deposit H p c a).1 = Except.error e → (deposit H p c a).2 = p) ∧
    (∀ (H : Nat → Nat → Nat) (p : PrivacyPool) (c : Nat) (e : PoolError),
      (add_commitment H p c).1 = Except.error e → (add_commitment H p c).2 = p) ∧
    (∀ (ns : NullifierSet) (n : Nat) (e : PoolError),
      (record_nullifier ns n).1 = Except.error e → (record_nullifier ns n).2 = ns) ∧
    (∀ (b : Batch) (e : ErrorCode),
      (record_order b).1 = Except.error e → (record_order b).2 = b) ∧
    (∀ (b : Batch) (s : Nat) (e : ErrorCode),
      (record_execution b s).1 = Except.error e → (record_execution b s).2 = b) ∧
    (∀ (b : Batch) (d : Distribution) (e : ErrorCode),
      (mark_distributed b d).1 = Except.error e → (mark_distributed b d).2 = (b, d)) ∧
    (∀ (sys : Sys) (i sh w : Nat) (e : TxError),
      (applyOp sys (Op.recordDistribution i sh w)).1 = Except.error e →
      (applyOp sys (Op.recordDistribution i sh w)).2 = sys) ∧
    (∀ (sys : Sys) (op : Op) (e : TxError),
      (applyOpTx sys op).1 = Except.error e → (applyOpTx sys op).2 = sys) ∧
    (∀ (sys : Sys) (t r : Nat) (e : TxError),
      (applyOpTx sys (Op.closeBatch t r)).1 = Except.error e →
      (applyOpTx sys (Op.closeBatch t r)).2.batch.status = sys.batch.status ∧
      (applyOpTx sys (Op.closeBatch t r)).2.batch.total_usdc = sys.batch.total_usdc) ∧
    (∀ (H : Nat → Nat → Nat) (p : PrivacyPool) (c : Nat), p.next_index = MAX_LEAVES →
      add_commitment H p c = (Except.error PoolError.TreeFull, p)) := by
  have h8 : ∀ (sys : Sys) (op : Op) (e : TxError),
      (applyOpTx sys op).1 = Except.error e → (applyOpTx sys op).2 = sys := by
    intro sys op e h
    by_cases hk : (applyOp sys op).1.isOk
    · rw [applyOpTx, if_pos hk] at h
      rw [h] at hk
      simp [Except.isOk, Except.toBool] at hk
    · rw [applyOpTx, if_neg hk]
  refine ⟨?_, ?_, ?_, ?_, ?_, ?_, ?_, h8, ?_, ?_⟩
  · intro H p c a e h
    by_cases hc : p.next_index < MAX_LEAVES
    · simp [deposit, hc] at h
    · simp [deposit, hc]
  · intro H p c e h
    by_cases hc : p.next_index < MAX_LEAVES
    · simp [add_commitment, hc] at h
    · simp [add_commitment, hc]
  · intro ns n e h
    by_cases hu : (ns.data.take ns.count).any (fun x => x == n)
    · simp [record_nullifier, hu]
    · by_cases hcap : ns.count < MAX_LEAVES
      · simp [record_nullifier, hu, hcap] at h
      · simp [record_nullifier, hu, hcap]
  · intro b e h
    by_cases hb : b.status = BatchStatus.Open
    · simp [record_order, hb] at h
    · simp [record_order, hb]
  · intro b s e h
    by_cases hb : b.status = BatchStatus.Closed
    · simp [record_execution, hb] at h
    · simp [record_execution, hb]
  · intro b d e h
    by_cases hd : d.executed
    · simp [mark_distributed, hd]
    · simp [mark_distributed, hd] at h
  · intro sys i sh w e h
    cases hl : sys.dists.lookup i with
    | some d => simp [applyOp, hl]
    | none =>
      by_cases hs : sys.batch.status = BatchStatus.Executed
          ∨ sys.batch.status = BatchStatus.Distributing
      · simp [applyOp, hl, hs] at h
      · simp [applyOp, hl, hs]
  · intro sys t r e h
    rw [h8 sys (Op.closeBatch t r) e h]
    exact ⟨rfl, rfl⟩
  · intro H p c h
    unfold add_commitment
    rw [if_neg (by omega)]

/-- A pool filled to capacity by 32 successful inserts under the concrete
hash Hcex. -/
def poolFullCex : PrivacyPool :=
  (List.range MAX_LEAVES).foldl (fun p i => (add_commitment Hcex p (i + 1)).2) initPool

set_option maxRecDepth 8000 in
/-- Claim C2 witness: on the concrete three-order system, the
count-mismatched close fails with CountMismatch and the persisted state is
unchanged, via the theorem; and on the concrete full pool, the 33rd insert
fails with TreeFull and returns the pool untouched, via the theorem. -/
theorem tx_error_rollback_witness :
    (applyOpTx sysA3 (Op.closeBatch 900 2)).1
      = Except.error (TxError.program ErrorCode.CountMismatch) ∧
    (applyOpTx sysA3 (Op.closeBatch 900 2)).2 = sysA3 ∧
    poolFullCex.next_index = MAX_LEAVES ∧
    add_commitment Hcex poolFullCex 99 = (Except.error PoolError.TreeFull, poolFullCex) :=
  ⟨rfl,
    tx_error_rollback.2.2.2.2.2.2.2.1 sysA3 (Op.closeBatch 900 2)
      (TxError.program ErrorCode.CountMismatch) rfl,
    rfl,
    tx_error_rollback.2.2.2.2.2.2.2.2.2 Hcex poolFullCex 99 rfl⟩

/-! ## Claim C10: the u8 order counter wraps -/

/-- Claim C10: order_count is an 8-bit counter: 256 successful record_order
calls on a fresh Open batch leave order_count at 0 again; more generally
n + 256 record_order calls produce exactly the same batch state as n calls,
so close_batch — whose revealed-count cross-check reads this counter —
cannot distinguish k orders from k + 256 orders; the MPC-side u8 counter of
add_to_batch advances the same way. -/
theorem order_count_wraps :
    (recordOrders batchA 256).order_count = 0 ∧
    (∀ b, b.status = BatchStatus.Open → b.order_count < 256 →
      ∀ n, recordOrders b (n + 256) = recordOrders b n) ∧
    (∀ b, b.status = BatchStatus.Open → b.order_count < 256 →
      ∀ n t r, close_batch (recordOrders b (n + 256)) t r = close_batch (recordOrders b n) t r) ∧
    (∀ b, b.status = BatchStatus.Open →
      (record_order b).2.order_count = (b.order_count + 1) % 256) ∧
    (∀ s a, (add_to_batch a s).order_count = (s.order_count + 1) % 256) := by
  have hrun : ∀ (b : Batch), b.status = BatchStatus.Open → b.order_count < 256 →
      ∀ n, recordOrders b (n + 256) = recordOrders b n := by
    intro b hb hc n
    rw [recordOrders_open b hb hc, recordOrders_open b hb hc]
    have : (b.order_count + (n + 256)) % 256 = (b.order_count + n) % 256 := by omega
    rw [this]
  refine ⟨?_, hrun, ?_, ?_, ?_⟩
  · rw [show (256 : Nat) = 0 + 256 from rfl, hrun batchA (by decide) (by decide) 0]
    decide
  · intro b hb hc n t r
    rw [hrun b hb hc n]
  · intro b hb
    simp [record_order, hb]
  · intro s a
    simp [add_to_batch]

/-- Claim C10 witness: the wrap statement applied to the concrete fresh
batch with n = 1. -/
theorem order_count_wraps_witness :
    batchA.status = BatchStatus.Open ∧ batchA.order_count < 256 ∧
    recordOrders batchA (1 + 256) = recordOrders batchA 1 :=
  ⟨by decide, by decide, order_count_wraps.2.1 batchA (by decide) (by decide) 1⟩

/-! ## Claim C9: batch address seeds -/

/-- Claim C9, counterexample: the seed tuple of the batch PDA is identical
for side 0 and side 1 at the same authority and market id, so the derived
storage location — a fixed function of the seed tuple — is the same, not
distinct as claimed. -/
theorem createBatchSeeds_counterexample :
    createBatchSeeds 1 "SOL" 0 = createBatchSeeds 1 "SOL" 1 ∧ (0 : Nat) ≠ 1 :=
  ⟨rfl, by decide⟩

/-- Claim C9 (amended): the batch account's seed tuple is ("batch",
authority, market_id); the side argument of create_batch never enters the
derivation, so any two sides give the identical seed tuple, and the seed
tuple determines (authority, market id) and nothing else. -/
theorem createBatchSeeds_ignore_side :
    (∀ (a : Nat) (m : String) (s1 s2 : Nat),
      createBatchSeeds a m s1 = createBatchSeeds a m s2) ∧
    (∀ (a a' : Nat) (m m' : String) (s s' : Nat),
      createBatchSeeds a m s = createBatchSeeds a' m' s' ↔ a = a' ∧ m = m') := by
  constructor
  · intro a m s1 s2
    rfl
  · intro a a' m m' s s'
    simp [createBatchSeeds]

/-! ## Claim C1: Merkle root invariant -/

/-- The code's root computation agrees with the specification's
pad-and-hash algorithm exactly on non-empty leaf counts. -/
theorem compute_merkle_root_pos (H : Nat → Nat → Nat) (l : List Nat) (c : Nat) (hc : c ≠ 0) :
    compute_merkle_root H l c = specPadHashRoot H (l.take c) := by
  simp [compute_merkle_root, specPadHashRoot, hc]

/-- The code's root computation reads only the first count leaves. -/
theorem compute_merkle_root_congr (H : Nat → Nat → Nat) (l1 l2 : List Nat) (c : Nat)
    (h : l1.take c = l2.take c) :
    compute_merkle_root H l1 c = compute_merkle_root H l2 c := by
  simp [compute_merkle_root, h]

/-- Claim C1, counterexample: the initial pool state — reachable, with
next_index = 0 — stores the all-zero root, while the pad-and-hash
computation of section 4.1 applied to zero leaves hashes a full tree of
zero leaves, which is not the zero digest (shown at the concrete hash Hcex;
for the deployed Poseidon hash the two likewise differ, since equality
would force the iterated hash of zeros to be the zero digest).  So the
claimed equality fails at next_index = 0. -/
theorem merkle_root_empty_counterexample :
    ReachPool Hcex initPool ∧
    initPool.next_index = 0 ∧
    initPool.merkle_root ≠ specPadHashRoot Hcex (initPool.leaves.take initPool.next_index) :=
  ⟨ReachPool.init, rfl, by decide⟩

/-- Claim C1 (amended): every reachable pool state stores exactly
compute_merkle_root(leaves, next_index) — the synchronously recomputed root
— which for next_index ≥ 1 coincides with the section 4.1 pad-and-hash
computation over the first next_index leaves; at next_index = 0 the stored
root is the all-zero sentinel instead.  Two reachable states holding the
same leaves in the same order have identical roots. -/
theorem merkle_root_invariant :
    (∀ (H : Nat → Nat → Nat) (s : PrivacyPool), ReachPool H s →
      s.merkle_root = compute_merkle_root H s.leaves s.next_index) ∧
    (∀ (H : Nat → Nat → Nat) (s : PrivacyPool), ReachPool H s → s.next_index ≠ 0 →
      s.merkle_root = specPadHashRoot H (s.leaves.take s.next_index)) ∧
    (∀ (H : Nat → Nat → Nat) (s1 s2 : PrivacyPool), ReachPool H s1 → ReachPool H s2 →
      s1.next_index = s2.next_index →
      s1.leaves.take s1.next_index = s2.leaves.take s2.next_index →
      s1.merkle_root = s2.merkle_root) := by
  have inv : ∀ (H : Nat → Nat → Nat) (s : PrivacyPool), ReachPool H s →
      s.merkle_root = compute_merkle_root H s.leaves s.next_index := by
    intro H s hs
    induction hs with
    | init => simp [initPool, compute_merkle_root]
    | dep s c a _ ih =>
      by_cases h : s.next_index < MAX_LEAVES
      · simp [deposit, h]
      · simpa [deposit, h] using ih
    | add s c _ ih =>
      by_cases h : s.next_index < MAX_LEAVES
      · simp [add_commitment, h]
      · simpa [add_commitment, h] using ih
  refine ⟨inv, ?_, ?_⟩
  · intro H s hs hne
    rw [inv H s hs, compute_merkle_root_pos H _ _ hne]
  · intro H s1 s2 h1 h2 hidx htake
    rw [inv H s1 h1, inv H s2 h2, hidx, compute_merkle_root_congr H _ _ _ (hidx ▸ htake)]

/-- Claim C1 witness: the invariant at the concrete hash Hcex on the state
reached by one deposit and one add_commitment. -/
theorem merkle_root_invariant_witness :
    ReachPool Hcex (add_commitment Hcex (deposit Hcex initPool 11 40).2 22).2 ∧
    (add_commitment Hcex (deposit Hcex initPool 11 40).2 22).2.merkle_root
      = compute_merkle_root Hcex
          (add_commitment Hcex (deposit Hcex initPool 11 40).2 22).2.leaves
          (add_commitment Hcex (deposit Hcex initPool 11 40).2 22).2.next_index :=
  have h : ReachPool Hcex (add_commitment Hcex (deposit Hcex initPool 11 40).2 22).2 :=
    ReachPool.add _ _ (ReachPool.dep _ _ _ ReachPool.init)
  ⟨h, merkle_root_invariant.1 Hcex _ h⟩

/-! ## Claim C5: single-leaf root -/

/-- The specification's stated single-leaf root: iteratively hash the leaf
against the zero leaf, depth times. -/
def iterHashZero (H : Nat → Nat → Nat) (L : Nat) : Nat → Nat
  | 0 => L
  | k + 1 => H (iterHashZero H L k) 0

/-- The all-zero subtree digest of each level: level 0 is the zero leaf,
and each higher level hashes two copies of the level below. -/
def zeroSubtree (H : Nat → Nat → Nat) : Nat → Nat
  | 0 => 0
  | k + 1 => H (zeroSubtree H k) (zeroSubtree H k)

/-- Hashing a single leaf up the tree: at each level the right sibling is
the zero subtree digest of that level. -/
def chainWithZeroSubtrees (H : Nat → Nat → Nat) (L : Nat) : Nat → Nat
  | 0 => L
  | k + 1 => H (chainWithZeroSubtrees H L k) (zeroSubtree H k)

/-- Claim C5, counterexample: at the concrete hash Hcex and leaf 5, the
root after inserting the single leaf into the empty pool differs from
hashing the leaf against the zero leaf five times — the code hashes the
leaf against the growing zero-subtree digests, not against the zero leaf,
and for any hash with H(0,0) ≠ 0 (as for Poseidon) the two disagree. -/
theorem single_leaf_counterexample :
    (add_commitment Hcex initPool 5).1 = Except.ok () ∧
    (add_commitment Hcex initPool 5).2.merkle_root ≠ iterHashZero Hcex 5 MERKLE_DEPTH :=
  ⟨rfl, by decide⟩

/-- Claim C5 (amended): inserting a single leaf L into the empty pool
succeeds and yields the root obtained by iteratively hashing L against the
zero-SUBTREE digest of each of the 5 levels (the zero leaf at level 0, then
H applied to two copies of the previous digest), for every pair hash H. -/
theorem single_leaf_root (H : Nat → Nat → Nat) (L : Nat) :
    (add_commitment H initPool L).1 = Except.ok () ∧
    (add_commitment H initPool L).2.merkle_root = chainWithZeroSubtrees H L MERKLE_DEPTH :=
  ⟨rfl, rfl⟩

/-! ## Claim C6: nullifier set -/

/-- Wellformedness of the nullifier account: the data array has its fixed
32 slots and the count stays within capacity. -/
def NullifierSet.wf (ns : NullifierSet) : Prop :=
  ns.data.length = MAX_LEAVES ∧ ns.count ≤ MAX_LEAVES

/-- Writing at position c and taking c+1 entries appends the written value
to the first c entries. -/
theorem take_succ_set (l : List Nat) (c : Nat) (x : Nat) (h : c < l.length) :
    (l.set c x).take (c + 1) = l.take c ++ [x] := by
  induction l generalizing c with
  | nil => simp at h
  | cons a tl ih =>
    cases c with
    | zero => simp
    | succ k =>
      simp only [List.set, List.take, List.cons_append]
      rw [ih k (by simpa using h)]

/-- One record_nullifier call: the membership scan afterwards answers true
exactly for nullifiers already present or just successfully appended, and
wellformedness is preserved. -/
theorem used_record_step (ns : NullifierSet) (o N : Nat) (h : ns.wf) :
    is_nullifier_used (record_nullifier ns o).2 N
      = (is_nullifier_used ns N || ((o == N) && (record_nullifier ns o).1.isOk)) ∧
    (record_nullifier ns o).2.wf := by
  obtain ⟨hl, hc⟩ := h
  by_cases hused : (ns.data.take ns.count).any (fun x => x == o)
  · have hs : (record_nullifier ns o).2 = ns := by simp [record_nullifier, hused]
    refine ⟨?_, by rw [hs]; exact ⟨hl, hc⟩⟩
    simp [record_nullifier, is_nullifier_used, hused, Except.isOk, Except.toBool]
  · by_cases hcap : ns.count < MAX_LEAVES
    · have hlen : ns.count < ns.data.length := by omega
      refine ⟨?_, ?_, ?_⟩
      · simp [record_nullifier, is_nullifier_used, hused, hcap,
          take_succ_set ns.data ns.count o hlen, Except.isOk, Except.toBool]
      · simp [record_nullifier, NullifierSet.wf, hused, hcap, hl]
      · simp [record_nullifier, NullifierSet.wf, hused, hcap]
        omega
    · have hs : (record_nullifier ns o).2 = ns := by simp [record_nullifier, hused, hcap]
      refine ⟨?_, by rw [hs]; exact ⟨hl, hc⟩⟩
      simp [record_nullifier, is_nullifier_used, hused, hcap, Except.isOk, Except.toBool]

/-- Along any run of record_nullifier calls, the membership scan for N
answers true exactly when N was already present or some call in the run
successfully recorded N. -/
theorem used_run (ops : List Nat) : ∀ ns : NullifierSet, ns.wf → ∀ N,
    is_nullifier_used (runNullifiers ops ns) N
      = (is_nullifier_used ns N || recordedOk ops ns N) := by
  induction ops with
  | nil => intro ns _ N; simp [runNullifiers, recordedOk]
  | cons o rest ih =>
    intro ns hwf N
    have hstep := used_record_step ns o N hwf
    have hrun : runNullifiers (o :: rest) ns = runNullifiers rest (record_nullifier ns o).2 := rfl
    rw [hrun, ih _ hstep.2 N, hstep.1]
    simp only [recordedOk]
    rw [Bool.or_assoc]

/-- Claim C6: record_nullifier fails with NullifierAlreadyUsed (leaving the
set unchanged) when the nullifier is among the first count entries, fails
with NullifierStorageFull when the set is full (and the nullifier absent,
the duplicate scan running first), and otherwise appends and increments;
after a successful record the membership scan answers true and a second
record of the same value fails NullifierAlreadyUsed; and along any run of
calls from the fresh account, the scan answers true exactly when the value
was successfully recorded during the run. -/
theorem record_nullifier_spec :
    (∀ ns n, is_nullifier_used ns n = true →
      record_nullifier ns n = (Except.error PoolError.NullifierAlreadyUsed, ns)) ∧
    (∀ ns n, is_nullifier_used ns n = false → ns.count = MAX_LEAVES →
      record_nullifier ns n = (Except.error PoolError.NullifierStorageFull, ns)) ∧
    (∀ ns n, is_nullifier_used ns n = false → ns.count < MAX_LEAVES →
      record_nullifier ns n
        = (Except.ok (), { count := ns.count + 1, data := ns.data.set ns.count n })) ∧
    (∀ ns n, ns.wf → (record_nullifier ns n).1 = Except.ok () →
      is_nullifier_used (record_nullifier ns n).2 n = true ∧
      (record_nullifier (record_nullifier ns n).2 n).1
        = Except.error PoolError.NullifierAlreadyUsed) ∧
    (∀ ops N, is_nullifier_used (runNullifiers ops initNullifiers) N
      = recordedOk ops initNullifiers N) := by
  have hfst : ∀ ns n, is_nullifier_used ns n = true →
      record_nullifier ns n = (Except.error PoolError.NullifierAlreadyUsed, ns) := by
    intro ns n hu
    simp only [is_nullifier_used] at hu
    simp [record_nullifier, hu]
  refine ⟨hfst, ?_, ?_, ?_, ?_⟩
  · intro ns n hu hfull
    simp only [is_nullifier_used] at hu
    unfold record_nullifier
    rw [if_neg (by simp [hu]), if_neg (by omega)]
  · intro ns n hu hcap
    simp only [is_nullifier_used] at hu
    simp [record_nullifier, hu, hcap]
  · intro ns n hwf hok
    have hstep := used_record_step ns n n hwf
    have hused : is_nullifier_used (record_nullifier ns n).2 n = true := by
      rw [hstep.1, hok]
      simp [Except.isOk, Except.toBool]
    refine ⟨hused, ?_⟩
    rw [hfst _ _ hused]
  · intro ops N
    have h0 : is_nullifier_used initNullifiers N = false := rfl
    rw [used_run ops initNullifiers ⟨rfl, by decide⟩ N, h0, Bool.false_or]

/-- Claim C6 witness: recording 7 in the fresh set succeeds and appends;
the membership scan then answers true, and a second record of 7 fails with
NullifierAlreadyUsed. -/
theorem record_nullifier_spec_witness :
    is_nullifier_used initNullifiers 7 = false ∧ initNullifiers.count < MAX_LEAVES ∧
    record_nullifier initNullifiers 7
      = (Except.ok (), { count := 1, data := (List.replicate MAX_LEAVES 0).set 0 7 }) ∧
    NullifierSet.wf initNullifiers ∧ (record_nullifier initNullifiers 7).1 = Except.ok () ∧
    is_nullifier_used (record_nullifier initNullifiers 7).2 7 = true ∧
    (record_nullifier (record_nullifier initNullifiers 7).2 7).1
      = Except.error PoolError.NullifierAlreadyUsed :=
  ⟨rfl, by decide, record_nullifier_spec.2.2.1 initNullifiers 7 rfl (by decide),
    ⟨rfl, by decide⟩, rfl,
    (record_nullifier_spec.2.2.2.1 initNullifiers 7 ⟨rfl, by decide⟩ rfl).1,
    (record_nullifier_spec.2.2.2.1 initNullifiers 7 ⟨rfl, by decide⟩ rfl).2⟩

/-! ## Claim C7: mark_distributed -/

/-- A concrete unexecuted distribution record. -/
def distA : Distribution := { order_index := 0, shares := 10, wallet := 3, executed := false }

/-- Claim C7: mark_distributed succeeds exactly when the distribution
account exists (a missing account is rejected by the runtime lookup) and
its executed flag is false; on success it flips the flag and bumps the
completion counter, and the batch status becomes Completed exactly when the
bumped counter equals the order count — from any not-yet-Completed status,
never otherwise; a second call on the same distribution fails with
AlreadyDistributed. -/
theorem mark_distributed_spec :
    (∀ b d, d.executed = true →
      mark_distributed b d = (Except.error ErrorCode.AlreadyDistributed, b, d)) ∧
    (∀ b d, d.executed = false →
      (mark_distributed b d).1 = Except.ok () ∧
      (mark_distributed b d).2.2 = { d with executed := true } ∧
      (mark_distributed b d).2.1.distributions_completed
        = (b.distributions_completed + 1) % 256 ∧
      (mark_distributed b d).2.1.status
        = (if (b.distributions_completed + 1) % 256 = b.order_count
           then BatchStatus.Completed else b.status)) ∧
    (∀ b d, (mark_distributed b d).1 = Except.ok () →
      (mark_distributed (mark_distributed b d).2.1 (mark_distributed b d).2.2).1
        = Except.error ErrorCode.AlreadyDistributed) ∧
    (∀ sys i, sys.dists.lookup i = none →
      applyOp sys (Op.markDistributed i) = (Except.error TxError.accountNotFound, sys)) ∧
    (∀ b d, b.status ≠ BatchStatus.Completed → d.executed = false →
      ((mark_distributed b d).2.1.status = BatchStatus.Completed
        ↔ (b.distributions_completed + 1) % 256 = b.order_count)) := by
  refine ⟨?_, ?_, ?_, ?_, ?_⟩
  · intro b d hd
    simp [mark_distributed, hd]
  · intro b d hd
    refine ⟨by simp [mark_distributed, hd], by simp [mark_distributed, hd], ?_, ?_⟩
    · simp only [mark_distributed, hd, Bool.false_eq_true, not_false_eq_true, reduceIte]
      split <;> rfl
    · simp only [mark_distributed, hd, Bool.false_eq_true, not_false_eq_true, reduceIte]
      split <;> simp_all
  · intro b d hok
    by_cases hd : d.executed
    · simp [mark_distributed, hd] at hok
    · simp [mark_distributed, hd]
  · intro sys i hl
    simp [applyOp, hl]
  · intro b d hb hd
    have hs : (mark_distributed b d).2.1.status
        = (if (b.distributions_completed + 1) % 256 = b.order_count
           then BatchStatus.Completed else b.status) := by
      simp only [mark_distributed, hd, Bool.false_eq_true, not_false_eq_true, reduceIte]
      split <;> simp_all
    rw [hs]
    by_cases hc : (b.distributions_completed + 1) % 256 = b.order_count
    · simp [hc]
    · simp [hc, hb]

/-- Claim C7 witness: marking the concrete unexecuted distribution on the
concrete three-order batch succeeds, flips the flag, bumps the counter to
1 ≠ 3 and therefore leaves the status Open rather than Completed. -/
theorem mark_distributed_spec_witness :
    distA.executed = false ∧
    (mark_distributed batchA3 distA).1 = Except.ok () ∧
    (mark_distributed batchA3 distA).2.2 = { distA with executed := true } ∧
    (mark_distributed batchA3 distA).2.1.distributions_completed = 1 ∧
    (mark_distributed batchA3 distA).2.1.status = BatchStatus.Open :=
  have h := (mark_distributed_spec.2.1 batchA3 distA rfl)
  ⟨rfl, h.1, h.2.1, by rw [h.2.2.1]; decide, by rw [h.2.2.2]; decide⟩

/-! ## Claim C8: status monotonicity -/

/-- The position of a status along the lifecycle chain
Open, Closed, Executed, Distributing, Completed. -/
def statusRank : BatchStatus → Nat
  | BatchStatus.Open => 0
  | BatchStatus.Closed => 1
  | BatchStatus.Executed => 2
  | BatchStatus.Distributing => 3
  | BatchStatus.Completed => 4

/-- Ranks determine statuses. -/
theorem statusRank_inj : ∀ x y : BatchStatus, statusRank x = statusRank y → x = y := by
  intro x y h
  cases x <;> cases y <;> simp_all [statusRank]

/-- Every rank is at most the rank of Completed. -/
theorem statusRank_le_four (s : BatchStatus) : statusRank s ≤ 4 := by
  cases s <;> simp [statusRank]

/-- One instruction never lowers the batch status rank (this holds for
failing calls as well: the only failing call that mutates at all,
close_batch on a count mismatch, moves Open forward to Closed). -/
theorem applyOp_rank_mono (sys : Sys) (op : Op) :
    statusRank sys.batch.status ≤ statusRank (applyOp sys op).2.batch.status := by
  cases op with
  | recordOrder =>
    by_cases h : sys.batch.status = BatchStatus.Open <;> simp [applyOp, record_order, h]
  | closeBatch t r =>
    by_cases h : sys.batch.status = BatchStatus.Open
    · by_cases h0 : sys.batch.order_count > 0
      · by_cases hr : r = sys.batch.order_count <;>
          simp [applyOp, close_batch, h, h0, hr, statusRank]
      · simp [applyOp, close_batch, h, h0]
    · simp [applyOp, close_batch, h]
  | recordExecution s =>
    by_cases h : sys.batch.status = BatchStatus.Closed <;>
      simp [applyOp, record_execution, h, statusRank]
  | recordDistribution i sh w =>
    cases hl : sys.dists.lookup i with
    | some d => simp [applyOp, hl]
    | none =>
      by_cases h : sys.batch.status = BatchStatus.Executed
          ∨ sys.batch.status = BatchStatus.Distributing
      · rcases h with h | h <;> simp [applyOp, hl, h, statusRank]
      · simp [applyOp, hl, h]
  | markDistributed i =>
    cases hl : sys.dists.lookup i with
    | none => simp [applyOp, hl]
    | some d =>
      by_cases hd : d.executed
      · simp [applyOp, hl, mark_distributed, hd]
      · simp only [applyOp, hl, mark_distributed, hd, Bool.false_eq_true, not_false_eq_true,
          reduceIte]
        split
        · simpa [statusRank] using statusRank_le_four sys.batch.status
        · simp

/-- Claim C8: the batch status is monotone along the lifecycle chain: no
single instruction lowers its rank, no run of instructions lowers its rank,
and once a run leaves a status the status is never revisited later (a
status seen again after an intermediate run forces the intermediate status
to be that same status). -/
theorem status_monotone :
    (∀ sys op, statusRank sys.batch.status ≤ statusRank (applyOp sys op).2.batch.status) ∧
    (∀ sys ops, statusRank sys.batch.status ≤ statusRank (runOps sys ops).batch.status) ∧
    (∀ sys l1 l2 l3,
      (runOps sys l1).batch.status = (runOps (runOps (runOps sys l1) l2) l3).batch.status →
      (runOps (runOps sys l1) l2).batch.status = (runOps sys l1).batch.status) := by
  have hrun : ∀ ops sys, statusRank sys.batch.status ≤ statusRank (runOps sys ops).batch.status := by
    intro ops
    induction ops with
    | nil => intro sys; exact le_refl _
    | cons op rest ih =>
      intro sys
      have h1 := applyOp_rank_mono sys op
      have h2 := ih (applyOp sys op).2
      exact le_trans h1 h2
  refine ⟨applyOp_rank_mono, fun sys ops => hrun ops sys, ?_⟩
  intro sys l1 l2 l3 h
  have h12 := hrun l2 (runOps sys l1)
  have h23 := hrun l3 (runOps (runOps sys l1) l2)
  have hr := congrArg statusRank h
  apply statusRank_inj
  omega

/-- Claim C8 witness: on the concrete three-order system, an empty run, a
record_order run and another empty run reach the same status Open, and the
no-revisit clause, applied via the theorem, confirms the intermediate
status is Open as well. -/
theorem status_monotone_witness :
    (runOps sysA3 []).batch.status
      = (runOps (runOps (runOps sysA3 []) [Op.recordOrder]) []).batch.status ∧
    (runOps (runOps sysA3 []) [Op.recordOrder]).batch.status
      = (runOps sysA3 []).batch.status :=
  ⟨by decide, status_monotone.2.2 sysA3 [] [Op.recordOrder] [] (by decide)⟩

end ObsidianSpec
